import Mathlib

/-!
Verification of the per-resource synchronization engine in
src/vs/platform/userDataSync/common/abstractSynchronizer.ts.

The embedding is shallow: JSON envelope validation is modelled over an
explicit JSON value type; the reconciliation driver is modelled as explicit
state passing over an engine-state record, with the strategy hooks
(generatePreview, applyPreview, updatePreviewWithConflict, ...) and the
external services (remote store, last-sync file) supplied as oracles in an
environment record, indexed by a call tick so that successive calls may
return different results.  Unbounded recursion (the precondition retry loop
in performSync) is given explicit fuel; fuel exhaustion is the value `none`.
-/

namespace UserDataSync

/-! ## JSON values and the envelope codec -/

/-- A JSON value, as produced by a JSON parse.  Objects are association
lists of fields; a parse always yields objects with distinct keys, which is
taken as a hypothesis where it matters. -/
inductive JsonValue where
  | jnull : JsonValue
  | jbool : Bool → JsonValue
  | jnum : Int → JsonValue
  | jstr : String → JsonValue
  | jarr : List JsonValue → JsonValue
  | jobj : List (String × JsonValue) → JsonValue

/-- Field lookup in an object field list (first binding wins; objects coming
from a JSON parse have distinct keys, so this is the JavaScript property
access). -/
def fieldLookup (fields : List (String × JsonValue)) (k : String) : Option JsonValue :=
  match fields with
  | [] => none
  | (k1, v) :: rest => if k1 = k then some v else fieldLookup rest k

/-- The field is present and holds a number: the test
`thing.version !== undefined && typeof thing.version === 'number'`. -/
def keyIsNum (fields : List (String × JsonValue)) (k : String) : Bool :=
  match fieldLookup fields k with
  | some (JsonValue.jnum _) => true
  | _ => false

/-- The field is present and holds a string: the test
`thing.content !== undefined && typeof thing.content === 'string'`. -/
def keyIsStr (fields : List (String × JsonValue)) (k : String) : Bool :=
  match fieldLookup fields k with
  | some (JsonValue.jstr _) => true
  | _ => false

/-- Translation of the source function `isSyncData` (lines 36-53): the value
must have a numeric `version` and a string `content`, and have either
exactly 2 keys, or exactly 3 keys of which `machineId` is a string.
`Object.keys(thing).length` is the number of fields.  A non-object value
fails the property accesses (they are `undefined`), hence returns false. -/
def isSyncData : JsonValue → Bool
  | JsonValue.jobj fields =>
      keyIsNum fields "version" && keyIsStr fields "content" &&
        (fields.length == 2 || (fields.length == 3 && keyIsStr fields "machineId"))
  | _ => false

/-- The decoded envelope `ISyncData`: `machineId` is optional. -/
structure SyncData where
  version : Int
  machineId : Option String
  content : String
deriving DecidableEq

/-- Reading the typed fields out of a value that passed `isSyncData`
(the source merely casts).  Defaults are irrelevant junk used only on
values that fail `isSyncData`. -/
def decodeSyncData : JsonValue → SyncData
  | JsonValue.jobj fields =>
      { version := match fieldLookup fields "version" with
                   | some (JsonValue.jnum n) => n
                   | _ => 0
        machineId := match fieldLookup fields "machineId" with
                     | some (JsonValue.jstr m) => some m
                     | _ => none
        content := match fieldLookup fields "content" with
                   | some (JsonValue.jstr c) => c
                   | _ => "" }
  | _ => { version := 0, machineId := none, content := "" }

/-- JSON.stringify of an `ISyncData` object literal: the remote write path
builds `\x7b version, machineId, content \x7d` and the backup path builds
`\x7b version, content \x7d`, so the serialized object has the machineId
field exactly when the record carries one. -/
def encodeSyncData (sd : SyncData) : JsonValue :=
  match sd.machineId with
  | none => JsonValue.jobj [("version", JsonValue.jnum sd.version), ("content", JsonValue.jstr sd.content)]
  | some m => JsonValue.jobj [("version", JsonValue.jnum sd.version), ("machineId", JsonValue.jstr m), ("content", JsonValue.jstr sd.content)]

/-- Error codes of `UserDataSyncError` that the engine distinguishes. -/
inductive UserDataSyncErrorCode where
  | preconditionFailed : UserDataSyncErrorCode
  | localPreconditionFailed : UserDataSyncErrorCode
  | incompatible : UserDataSyncErrorCode
  | other : Nat → UserDataSyncErrorCode
deriving DecidableEq

/-- A thrown error: either a `UserDataSyncError` carrying a code, or any
other JavaScript error (tagged opaquely). -/
inductive SyncError where
  | userDataSyncError : UserDataSyncErrorCode → SyncError
  | genericError : Nat → SyncError
deriving DecidableEq

/-- Translation of `parseSyncData` (lines 487-497).  The argument is the
result of `JSON.parse` on the content string (`none` when the parse threw).
On a successful parse the value is checked with `isSyncData`; any failure
raises a `UserDataSyncError` with code `Incompatible`. -/
def parseSyncData (parsed : Option JsonValue) : Except SyncError SyncData :=
  match parsed with
  | some v =>
      if isSyncData v then Except.ok (decodeSyncData v)
      else Except.error (SyncError.userDataSyncError UserDataSyncErrorCode.incompatible)
  | none => Except.error (SyncError.userDataSyncError UserDataSyncErrorCode.incompatible)

/-! ## The exact-shape predicate used by claim C4 (worded from the spec) -/

/-- The keys of the fields list are exactly `ks`, as a set. -/
def HasExactKeys (fields : List (String × JsonValue)) (ks : List String) : Prop :=
  (∀ k ∈ ks, k ∈ fields.map Prod.fst) ∧ (∀ k ∈ fields.map Prod.fst, k ∈ ks)

/-- Modelled from the claim wording: the value has exactly the keys
version (a number) and content (a string), or exactly the keys
version (a number), machineId (a string) and content (a string). -/
def SyncDataShape (v : JsonValue) : Prop :=
  ∃ fields, v = JsonValue.jobj fields ∧
    ((HasExactKeys fields ["version", "content"] ∧
        keyIsNum fields "version" = true ∧ keyIsStr fields "content" = true) ∨
     (HasExactKeys fields ["version", "machineId", "content"] ∧
        keyIsNum fields "version" = true ∧ keyIsStr fields "machineId" = true ∧
        keyIsStr fields "content" = true))

/-- The keys of a JSON object are pairwise distinct (true of every value a
JSON parse produces; vacuous on non-objects). -/
def keysNodup : JsonValue → Prop
  | JsonValue.jobj fields => (fields.map Prod.fst).Nodup
  | _ => True

lemma fieldLookup_mem {fields : List (String × JsonValue)} {k : String} {v : JsonValue}
    (h : fieldLookup fields k = some v) : k ∈ fields.map Prod.fst := by
  induction fields with
  | nil => simp [fieldLookup] at h
  | cons a rest ih =>
    rw [fieldLookup] at h
    by_cases hk : a.1 = k
    · simp [hk]
    · simp [hk] at h
      simpa using Or.inr (ih h)

lemma keyIsNum_mem {fields : List (String × JsonValue)} {k : String}
    (h : keyIsNum fields k = true) : k ∈ fields.map Prod.fst := by
  rw [keyIsNum] at h
  rcases hl : fieldLookup fields k with _ | v
  · rw [hl] at h; simp at h
  · exact fieldLookup_mem hl

lemma keyIsStr_mem {fields : List (String × JsonValue)} {k : String}
    (h : keyIsStr fields k = true) : k ∈ fields.map Prod.fst := by
  rw [keyIsStr] at h
  rcases hl : fieldLookup fields k with _ | v
  · rw [hl] at h; simp at h
  · exact fieldLookup_mem hl

/-- Under distinct keys, a list of strings that contains each element of
`ks` and has the length of `ks` consists exactly of the elements of `ks`. -/
lemma nodup_length_eq_exact {l ks : List String} (hnd : l.Nodup) (hks : ks.Nodup)
    (hsub : ∀ k ∈ ks, k ∈ l) (hlen : l.length = ks.length) : ∀ k ∈ l, k ∈ ks := by
  intro k hk
  have hsub' : ks.toFinset ⊆ l.toFinset := by
    intro x hx
    rw [List.mem_toFinset] at hx ⊢
    exact hsub x hx
  have hcard : l.toFinset.card ≤ ks.toFinset.card := by
    rw [List.toFinset_card_of_nodup hnd, List.toFinset_card_of_nodup hks, hlen]
  have heq : ks.toFinset = l.toFinset := Finset.eq_of_subset_of_card_le hsub' hcard
  have : k ∈ ks.toFinset := by
    rw [heq, List.mem_toFinset]
    exact hk
  rwa [List.mem_toFinset] at this

/-- Converse direction: distinct keys drawn from `ks` and containing all of
`ks` give a list of the length of `ks`. -/
lemma nodup_exact_length {l ks : List String} (hnd : l.Nodup) (hks : ks.Nodup)
    (hsub : ∀ k ∈ ks, k ∈ l) (hsup : ∀ k ∈ l, k ∈ ks) : l.length = ks.length := by
  have : l.toFinset = ks.toFinset := by
    apply Finset.Subset.antisymm
    · intro x hx
      rw [List.mem_toFinset] at hx ⊢
      exact hsup x hx
    · intro x hx
      rw [List.mem_toFinset] at hx ⊢
      exact hsub x hx
  calc l.length = l.toFinset.card := (List.toFinset_card_of_nodup hnd).symm
    _ = ks.toFinset.card := by rw [this]
    _ = ks.length := List.toFinset_card_of_nodup hks

/-! ## The engine state

`AbstractSynchroniser` keeps: the status, the conflict list, the single
cancellable preview promise (here: an optional settled promise value, since
the stored promise may be resolved or rejected by the time it is awaited),
and the emitted events.  Two bookkeeping fields make behaviour observable:
`tick` numbers oracle calls, and `log` records the externally visible
actions (service calls, telemetry pings). -/

/-- `SyncStatus` (Idle initial). -/
inductive SyncStatus where
  | idle : SyncStatus
  | syncing : SyncStatus
  | hasConflicts : SyncStatus
deriving DecidableEq

/-- A conflict pair of URIs (URIs are modelled as strings; the source
compares conflicts by URI equality on both fields). -/
structure Conflict where
  localUri : String
  remoteUri : String
deriving DecidableEq

/-- `IRemoteUserData`: server ref plus decoded envelope (null when the
resource does not exist remotely). -/
structure RemoteUserData where
  ref : String
  syncData : Option SyncData
deriving DecidableEq

/-- The strategy-produced `ISyncPreview`, by the flags the engine reads. -/
structure Preview where
  hasConflicts : Bool
  hasLocalChanged : Bool
  hasRemoteChanged : Bool
  remoteUserData : RemoteUserData
  lastSyncUserData : Option RemoteUserData
deriving DecidableEq

/-- Externally visible actions of the engine, recorded in order. -/
inductive Action where
  | getRemoteCall : Option RemoteUserData → Action
  | getLastSyncCall : Action
  | doSyncCall : RemoteUserData → Option RemoteUserData → Action
  | generatePreviewCall : Action
  | generateReplacePreviewCall : Action
  | updatePreviewCall : Action
  | applyPreviewCall : Bool → Action
  | telemetry : String → Action
deriving DecidableEq

/-- The mutable fields of one synchroniser instance, plus event and action
logs. -/
structure EngineState where
  status : SyncStatus
  conflicts : List Conflict
  preview : Option (Except SyncError Preview)
  statusEvents : List SyncStatus
  conflictEvents : List (List Conflict)
  tick : Nat
  log : List Action

/-- The environment: the declared strategy version, the enablement flag,
and the strategy and service calls as oracles indexed by the call tick.
`remoteData` is `getRemoteUserData` (its argument is the last-sync data
passed for cheap reads; passing `none` bypasses any cache), `lastSyncData`
is `getLastSyncUserData`. -/
structure Env where
  version : Int
  enabled : Bool
  resource : String
  lastSyncData : Nat → Option RemoteUserData
  remoteData : Nat → Option RemoteUserData → RemoteUserData
  generatePreview : Nat → RemoteUserData → Option RemoteUserData → Except SyncError Preview
  generateReplacePreview : Nat → SyncData → RemoteUserData → Option RemoteUserData → Except SyncError Preview
  updatePreviewWithConflict : Nat → Preview → String → String → Except SyncError Preview
  applyPreview : Nat → Preview → Bool → Except SyncError Unit
  resolveContent : String → Option String
  jsonParse : String → Option JsonValue

/-- Record an action and consume a tick; returns the tick at which the
recorded call happens. -/
def bump (s : EngineState) (a : Action) : EngineState × Nat :=
  ({ s with tick := s.tick + 1, log := s.log ++ [a] }, s.tick)

/-- A call to `getRemoteUserData` with the given last-sync argument. -/
def callGetRemote (env : Env) (s : EngineState) (arg : Option RemoteUserData) :
    EngineState × RemoteUserData :=
  let p := bump s (Action.getRemoteCall arg)
  (p.1, env.remoteData p.2 arg)

/-- A call to `getLastSyncUserData`. -/
def callGetLastSync (env : Env) (s : EngineState) : EngineState × Option RemoteUserData :=
  let p := bump s Action.getLastSyncCall
  (p.1, env.lastSyncData p.2)

/-- Translation of `setConflicts` (lines 149-154): replace the list and fire
the event only when it differs (elementwise by URI pairs, which is
structural equality here). -/
def setConflicts (s : EngineState) (conflicts : List Conflict) : EngineState :=
  if s.conflicts = conflicts then s
  else { s with conflicts := conflicts, conflictEvents := s.conflictEvents ++ [conflicts] }

/-- Translation of `setStatus` (lines 130-147): a no-op on an equal status;
otherwise store, fire exactly one status event, emit the telemetry pings,
and clear the conflict list unless the new status is HasConflicts. -/
def setStatus (s : EngineState) (status : SyncStatus) : EngineState :=
  if s.status = status then s
  else
    let oldStatus := s.status
    let s1 := { s with status := status, statusEvents := s.statusEvents ++ [status] }
    let s2 :=
      if status = SyncStatus.hasConflicts then
        { s1 with log := s1.log ++ [Action.telemetry "sync/conflictsDetected"] }
      else s1
    let s3 :=
      if oldStatus = SyncStatus.hasConflicts ∧ status = SyncStatus.idle then
        { s2 with log := s2.log ++ [Action.telemetry "sync/conflictsResolved"] }
      else s2
    if status ≠ SyncStatus.hasConflicts then setConflicts s3 [] else s3

/-- Translation of `stop` (lines 521-528): cancel and null any in-flight
preview promise, then set Idle. -/
def stop (s : EngineState) : EngineState :=
  let s1 := match s.preview with
            | some _ => { s with preview := none }
            | none => s
  setStatus s1 SyncStatus.idle

/-- `manifest && manifest.latest ? manifest.latest[this.resource] : undefined`. -/
structure Manifest where
  latest : Option (List (String × String))

/-- The latest server ref the manifest reports for this resource, if any. -/
def latestRefOf (resource : String) (manifest : Option Manifest) : Option String :=
  match manifest with
  | some m =>
      match m.latest with
      | some l => l.lookup resource
      | none => none
  | none => none

/-- Translation of `getLatestRemoteUserData` (lines 272-288): reuse the
last-sync record as the remote view when its ref equals the manifest ref,
or when the manifest has no ref and the last-sync envelope was null;
otherwise fetch from the remote store. -/
def getLatestRemoteUserData (env : Env) (s : EngineState) (manifest : Option Manifest)
    (lastSyncUserData : Option RemoteUserData) : EngineState × RemoteUserData :=
  match lastSyncUserData with
  | some lsd =>
      let latestRef := latestRefOf env.resource manifest
      if some lsd.ref = latestRef then (s, lsd)
      else if latestRef = none ∧ lsd.syncData = none then (s, lsd)
      else callGetRemote env s (some lsd)
  | none => callGetRemote env s none

/-- The tail of `doSync` after the preview promise has resolved to `p`:
return HasConflicts leaving the stored preview intact, or apply the preview,
null it and return Idle; an apply error also nulls the preview and is
rethrown. -/
def doSyncApply (env : Env) (s : EngineState) (p : Preview) :
    EngineState × Except SyncError SyncStatus :=
  if p.hasConflicts then (s, Except.ok SyncStatus.hasConflicts)
  else
    let pb := bump s (Action.applyPreviewCall false)
    match env.applyPreview pb.2 p false with
    | Except.ok _ => ({ pb.1 with preview := none }, Except.ok SyncStatus.idle)
    | Except.error e => ({ pb.1 with preview := none }, Except.error e)

/-- Translation of `doSync` (lines 335-361).  If no preview promise exists,
one is created from `generatePreview`; the stored promise is then awaited
(a stored rejected promise rethrows).  Any error nulls the preview promise
and propagates. -/
def doSync (env : Env) (s : EngineState) (remote : RemoteUserData)
    (lastSync : Option RemoteUserData) : EngineState × Except SyncError SyncStatus :=
  match s.preview with
  | some (Except.error e) => ({ s with preview := none }, Except.error e)
  | some (Except.ok p) => doSyncApply env s p
  | none =>
      let pb := bump s Action.generatePreviewCall
      match env.generatePreview pb.2 remote lastSync with
      | Except.error e => ({ pb.1 with preview := none }, Except.error e)
      | Except.ok p => doSyncApply env { pb.1 with preview := some (Except.ok p) } p

/-- The guard `remoteUserData.syncData && remoteUserData.syncData.version >
this.version` opening `performSync` (line 300). -/
def isIncompatibleVersion (env : Env) (remote : RemoteUserData) : Bool :=
  match remote.syncData with
  | some sd => decide (sd.version > env.version)
  | none => false

/-- Translation of `performSync` (lines 299-333).  An incompatible remote
version throws (after the telemetry ping) before `doSync` runs.  A
`LocalPreconditionFailed` from `doSync` retries with the same arguments; a
`PreconditionFailed` refetches the remote bypassing the cache
(`getRemoteUserData(null)`), re-reads the persisted last-sync record, and
retries with both; any other error is rethrown.  The unbounded loop is
given fuel; exhausted fuel is `none`. -/
def performSync (env : Env) :
    Nat → EngineState → RemoteUserData → Option RemoteUserData →
    EngineState × Option (Except SyncError SyncStatus)
  | 0, s, _, _ => (s, none)
  | fuel + 1, s, remote, lastSync =>
      if isIncompatibleVersion env remote then
        ({ s with log := s.log ++ [Action.telemetry "sync/incompatible"] },
         some (Except.error (SyncError.userDataSyncError UserDataSyncErrorCode.incompatible)))
      else
        let sCall := { s with log := s.log ++ [Action.doSyncCall remote lastSync] }
        match doSync env sCall remote lastSync with
        | (s1, Except.ok status) => (s1, some (Except.ok status))
        | (s1, Except.error (SyncError.userDataSyncError UserDataSyncErrorCode.localPreconditionFailed)) =>
            performSync env fuel s1 remote lastSync
        | (s1, Except.error (SyncError.userDataSyncError UserDataSyncErrorCode.preconditionFailed)) =>
            let pr := callGetRemote env s1 none
            let pls := callGetLastSync env pr.1
            performSync env fuel pls.1 pr.2 pls.2
        | (s1, Except.error e) => (s1, some (Except.error e))

/-- Translation of `sync` (lines 203-242).  Disabled: ensure Idle and
return.  Re-entry while HasConflicts or Syncing: return.  Otherwise set
Syncing, read last-sync, resolve the latest remote view, run `performSync`,
and (in a finally) set the resulting status, Idle when `performSync`
threw.  Request headers are not modelled (no claim concerns them). -/
def sync (env : Env) (fuel : Nat) (s : EngineState) (manifest : Option Manifest) :
    EngineState × Option (Except SyncError Unit) :=
  if env.enabled = false then
    let s1 := if s.status ≠ SyncStatus.idle then stop s else s
    (s1, some (Except.ok ()))
  else if s.status = SyncStatus.hasConflicts then (s, some (Except.ok ()))
  else if s.status = SyncStatus.syncing then (s, some (Except.ok ()))
  else
    let s1 := setStatus s SyncStatus.syncing
    let pls := callGetLastSync env s1
    let pr := getLatestRemoteUserData env pls.1 manifest pls.2
    match performSync env fuel pr.1 pr.2 pls.2 with
    | (s2, none) => (s2, none)
    | (s2, some (Except.ok status)) => (setStatus s2 status, some (Except.ok ()))
    | (s2, some (Except.error e)) => (setStatus s2 SyncStatus.idle, some (Except.error e))

/-- Translation of `acceptConflict` (lines 367-389).  Only acts when the
current preview promise exists and has conflicts; stores the updated
preview promise; when the conflicts are gone, applies it, nulls it and sets
Idle.  Awaiting a stored rejected promise rethrows and the promise stays. -/
def acceptConflict (env : Env) (s : EngineState) (conflictUri conflictContent : String) :
    EngineState × Except SyncError Unit :=
  match s.preview with
  | none => (s, Except.ok ())
  | some (Except.error e) => (s, Except.error e)
  | some (Except.ok p) =>
      if p.hasConflicts = false then (s, Except.ok ())
      else
        let pb := bump s Action.updatePreviewCall
        let r := env.updatePreviewWithConflict pb.2 p conflictUri conflictContent
        let s1 := { pb.1 with preview := some r }
        match r with
        | Except.error e => (s1, Except.error e)
        | Except.ok p1 =>
            if p1.hasConflicts then (s1, Except.ok ())
            else
              let pb1 := bump s1 (Action.applyPreviewCall false)
              match env.applyPreview pb1.2 p1 false with
              | Except.error e => (pb1.1, Except.error e)
              | Except.ok _ =>
                  (setStatus { pb1.1 with preview := none } SyncStatus.idle, Except.ok ())

/-- Translation of `replace` (lines 244-270).  The resolved content must be
non-empty (JavaScript truthiness) or the call returns false; it is then
given to `parseSyncData`, whose failure propagates as a thrown
Incompatible error.  Otherwise: stop, set Syncing, build the replace
preview against the latest remote view (no manifest), apply it, and in a
finally return to Idle; the call returns true. -/
def replace (env : Env) (s : EngineState) (uri : String) :
    EngineState × Except SyncError Bool :=
  match env.resolveContent uri with
  | none => (s, Except.ok false)
  | some content =>
      if content = "" then (s, Except.ok false)
      else
        match parseSyncData (env.jsonParse content) with
        | Except.error e => (s, Except.error e)
        | Except.ok syncData =>
            let s1 := stop s
            let s2 := setStatus s1 SyncStatus.syncing
            let pls := callGetLastSync env s2
            let pr := getLatestRemoteUserData env pls.1 none pls.2
            let pg := bump pr.1 Action.generateReplacePreviewCall
            match env.generateReplacePreview pg.2 syncData pr.2 pls.2 with
            | Except.error e => (setStatus pg.1 SyncStatus.idle, Except.error e)
            | Except.ok p =>
                let pa := bump pg.1 (Action.applyPreviewCall false)
                match env.applyPreview pa.2 p false with
                | Except.error e => (setStatus pa.1 SyncStatus.idle, Except.error e)
                | Except.ok _ => (setStatus pa.1 SyncStatus.idle, Except.ok true)

/-! ## Last-sync persistence (lines 449-476)

The persisted file holds the JSON of `\x7b ref, content, ...extras \x7d`
where `content` is either null or a string holding the serialized envelope.
The record below is that file after the outer JSON parse, with the inner
content string kept in parsed form (serializing an envelope and parsing it
back is the identity on JSON values). -/

/-- The persisted last-sync file: ref, the parsed envelope (none is the
null sentinel meaning the remote was absent), and the remaining fields. -/
structure LastSyncRecord where
  ref : String
  content : Option JsonValue
  extras : List (String × JsonValue)

/-- The value `getLastSyncUserData` resolves to: ref, decoded envelope, and
whatever extra fields the spread of the parsed record kept. -/
structure LastSyncUserData where
  ref : String
  syncData : Option SyncData
  extras : List (String × JsonValue)

/-- Translation of `updateLastSyncUserData` (lines 473-476): write
`\x7b ref, content: syncData ? stringify(syncData) : null,
...additionalProps \x7d`.  The additional properties are assumed not to be
named ref or content (a same-named property would overwrite those fields). -/
def updateLastSyncUserData (remote : RemoteUserData)
    (additionalProps : List (String × JsonValue)) : LastSyncRecord :=
  { ref := remote.ref
    content := remote.syncData.map encodeSyncData
    extras := additionalProps }

/-- Translation of `getLastSyncUserData` (lines 449-471).  A missing or
unreadable file is `none` overall.  A null content returns only
`\x7b ref, syncData: null \x7d` (no spread of the parsed record).  A
non-null content is parsed and checked with `isSyncData`; on success the
whole parsed record is spread into the result with `syncData` decoded and
`content` removed; on failure the function returns null. -/
def getLastSyncUserData (record : Option LastSyncRecord) : Option LastSyncUserData :=
  match record with
  | none => none
  | some r =>
      match r.content with
      | none => some { ref := r.ref, syncData := none, extras := [] }
      | some j =>
          if isSyncData j then
            some { ref := r.ref, syncData := some (decodeSyncData j), extras := r.extras }
          else none

/-! ## Envelope construction for remote writes and local backups
(lines 509-519) -/

/-- The envelope `updateRemoteUserData` serializes and writes to the remote
store: `\x7b version: this.version, machineId, content \x7d` with the
current machine id. -/
def updateRemoteUserDataEnvelope (version : Int) (machineId content : String) : SyncData :=
  { version := version, machineId := some machineId, content := content }

/-- The envelope `backupLocal` serializes and hands to the local backup
store: `\x7b version: this.version, content \x7d`, with no machine id. -/
def backupLocalEnvelope (version : Int) (content : String) : SyncData :=
  { version := version, machineId := none, content := content }

/-! ## Control flow of pull and push (lines 156-201)

For the temporal claim about awaiting `stop`, the bodies of `pull` and
`push` on their enabled paths are modelled syntactically, as the ordered
list of the calls each makes, with the stop call tagged by whether the
source awaits it. -/

/-- One call made by the body of `pull` or `push`. -/
inductive StepKind where
  | callStop : Bool → StepKind
  | setStatusStep : SyncStatus → StepKind
  | getLastSyncStep : StepKind
  | getRemoteStep : StepKind
  | generatePullPreviewStep : StepKind
  | generatePushPreviewStep : StepKind
  | applyPreviewStep : Bool → StepKind
deriving DecidableEq

/-- The calls `pull` makes on its enabled path (lines 156-177):
`await this.stop()`, set Syncing, read last-sync, read remote, generate the
pull preview, apply it with forcePush false, and finally set Idle. -/
def pullSteps : List StepKind :=
  [StepKind.callStop true, StepKind.setStatusStep SyncStatus.syncing,
   StepKind.getLastSyncStep, StepKind.getRemoteStep,
   StepKind.generatePullPreviewStep, StepKind.applyPreviewStep false,
   StepKind.setStatusStep SyncStatus.idle]

/-- The calls `push` makes on its enabled path (lines 179-201):
`this.stop()` without await, set Syncing, read last-sync, read remote,
generate the push preview, apply it with forcePush true, and finally set
Idle. -/
def pushSteps : List StepKind :=
  [StepKind.callStop false, StepKind.setStatusStep SyncStatus.syncing,
   StepKind.getLastSyncStep, StepKind.getRemoteStep,
   StepKind.generatePushPreviewStep, StepKind.applyPreviewStep true,
   StepKind.setStatusStep SyncStatus.idle]

/-! ## Field bookkeeping lemmas for the engine operations -/

@[simp] lemma bump_fst_status (s : EngineState) (a : Action) : (bump s a).1.status = s.status := rfl
@[simp] lemma bump_fst_conflicts (s : EngineState) (a : Action) : (bump s a).1.conflicts = s.conflicts := rfl
@[simp] lemma bump_fst_preview (s : EngineState) (a : Action) : (bump s a).1.preview = s.preview := rfl
@[simp] lemma bump_fst_statusEvents (s : EngineState) (a : Action) : (bump s a).1.statusEvents = s.statusEvents := rfl
@[simp] lemma bump_fst_log (s : EngineState) (a : Action) : (bump s a).1.log = s.log ++ [a] := rfl
@[simp] lemma bump_snd (s : EngineState) (a : Action) : (bump s a).2 = s.tick := rfl
@[simp] lemma bump_fst_tick (s : EngineState) (a : Action) : (bump s a).1.tick = s.tick + 1 := rfl

@[simp] lemma callGetRemote_fst (env : Env) (s : EngineState) (arg : Option RemoteUserData) :
    (callGetRemote env s arg).1 = (bump s (Action.getRemoteCall arg)).1 := rfl

@[simp] lemma callGetLastSync_fst (env : Env) (s : EngineState) :
    (callGetLastSync env s).1 = (bump s Action.getLastSyncCall).1 := rfl

@[simp] lemma setConflicts_status (s : EngineState) (cs : List Conflict) :
    (setConflicts s cs).status = s.status := by
  unfold setConflicts; split <;> rfl

@[simp] lemma setConflicts_preview (s : EngineState) (cs : List Conflict) :
    (setConflicts s cs).preview = s.preview := by
  unfold setConflicts; split <;> rfl

@[simp] lemma setConflicts_statusEvents (s : EngineState) (cs : List Conflict) :
    (setConflicts s cs).statusEvents = s.statusEvents := by
  unfold setConflicts; split <;> rfl

@[simp] lemma setConflicts_log (s : EngineState) (cs : List Conflict) :
    (setConflicts s cs).log = s.log := by
  unfold setConflicts; split <;> rfl

@[simp] lemma setStatus_status (s : EngineState) (st : SyncStatus) :
    (setStatus s st).status = st := by
  simp only [setStatus]
  split
  · next h => exact h
  · (repeat' split) <;> simp_all

@[simp] lemma setStatus_preview (s : EngineState) (st : SyncStatus) :
    (setStatus s st).preview = s.preview := by
  simp only [setStatus]
  split
  · rfl
  · (repeat' split) <;> simp_all

@[simp] lemma setStatus_statusEvents (s : EngineState) (st : SyncStatus) :
    (setStatus s st).statusEvents =
      if s.status = st then s.statusEvents else s.statusEvents ++ [st] := by
  simp only [setStatus]
  split
  · next h => simp [h]
  · next h => (repeat' split) <;> simp_all

lemma setStatus_log_mono (s : EngineState) (st : SyncStatus) :
    ∀ a ∈ s.log, a ∈ (setStatus s st).log := by
  intro a ha
  simp only [setStatus]
  split
  · exact ha
  · (repeat' split) <;> simp_all

@[simp] lemma stop_preview (s : EngineState) : (stop s).preview = none := by
  rcases hp : s.preview with _ | pv <;> simp [stop, hp]

@[simp] lemma stop_status (s : EngineState) : (stop s).status = SyncStatus.idle := by
  rcases hp : s.preview with _ | pv <;> simp [stop, hp]

@[simp] lemma stop_statusEvents (s : EngineState) :
    (stop s).statusEvents =
      if s.status = SyncStatus.idle then s.statusEvents else s.statusEvents ++ [SyncStatus.idle] := by
  rcases hp : s.preview with _ | pv <;> simp [stop, hp]

lemma stop_log_mono (s : EngineState) : ∀ a ∈ s.log, a ∈ (stop s).log := by
  intro a ha
  rcases hp : s.preview with _ | pv <;> simp only [stop, hp] <;>
    exact setStatus_log_mono _ _ a ha

@[simp] lemma getLatest_fst_status (env : Env) (s : EngineState) (manifest : Option Manifest)
    (ls : Option RemoteUserData) :
    (getLatestRemoteUserData env s manifest ls).1.status = s.status := by
  rcases ls with _ | lsd
  · simp [getLatestRemoteUserData]
  · simp only [getLatestRemoteUserData]
    split
    · rfl
    · split
      · rfl
      · simp

@[simp] lemma getLatest_fst_preview (env : Env) (s : EngineState) (manifest : Option Manifest)
    (ls : Option RemoteUserData) :
    (getLatestRemoteUserData env s manifest ls).1.preview = s.preview := by
  rcases ls with _ | lsd
  · simp [getLatestRemoteUserData]
  · simp only [getLatestRemoteUserData]
    split
    · rfl
    · split
      · rfl
      · simp

@[simp] lemma getLatest_fst_statusEvents (env : Env) (s : EngineState) (manifest : Option Manifest)
    (ls : Option RemoteUserData) :
    (getLatestRemoteUserData env s manifest ls).1.statusEvents = s.statusEvents := by
  rcases ls with _ | lsd
  · simp [getLatestRemoteUserData]
  · simp only [getLatestRemoteUserData]
    split
    · rfl
    · split
      · rfl
      · simp

lemma getLatest_log_mono (env : Env) (s : EngineState) (manifest : Option Manifest)
    (ls : Option RemoteUserData) :
    ∀ a ∈ s.log, a ∈ (getLatestRemoteUserData env s manifest ls).1.log := by
  intro a ha
  rcases ls with _ | lsd
  · simp [getLatestRemoteUserData, ha]
  · simp only [getLatestRemoteUserData]
    split
    · exact ha
    · split
      · exact ha
      · simp [ha]

/-- Case analysis of `doSync`: every error return nulls the preview
promise; a clean apply returns Idle with the promise nulled; a conflicted
preview returns HasConflicts with the promise kept (and the whole state
untouched when the promise already existed). -/
lemma doSync_spec (env : Env) (s : EngineState) (remote : RemoteUserData)
    (lastSync : Option RemoteUserData) :
    ∀ s1 r, doSync env s remote lastSync = (s1, r) →
      ((∃ e, r = Except.error e) → s1.preview = none) ∧
      (r = Except.ok SyncStatus.idle → s1.preview = none) ∧
      (r = Except.ok SyncStatus.hasConflicts →
        s1.preview.isSome = true ∧ (s.preview.isSome = true → s1 = s)) := by
  intro s1 r h
  rcases hp : s.preview with _ | pv
  · simp only [doSync, hp, bump_snd] at h
    rcases hg : env.generatePreview s.tick remote lastSync with e | p
    · rw [hg] at h
      injection h with h1 h2
      subst h1; subst h2
      refine ⟨fun _ => rfl, by simp, by simp⟩
    · rw [hg] at h
      simp only [doSyncApply, bump_snd, bump_fst_tick] at h
      by_cases hc : p.hasConflicts
      · rw [if_pos hc] at h
        injection h with h1 h2
        subst h1; subst h2
        refine ⟨by simp, by simp, fun _ => ⟨rfl, by simp [hp]⟩⟩
      · rw [if_neg hc] at h
        rcases ha : env.applyPreview (s.tick + 1) p false with e | u
        · rw [ha] at h
          injection h with h1 h2
          subst h1; subst h2
          refine ⟨by simp, fun _ => rfl, by simp⟩
        · rw [ha] at h
          injection h with h1 h2
          subst h1; subst h2
          refine ⟨fun _ => rfl, by simp, by simp⟩
  · rcases pv with e | p
    · simp only [doSync, hp] at h
      injection h with h1 h2
      subst h1; subst h2
      refine ⟨fun _ => rfl, by simp, by simp⟩
    · simp only [doSync, hp, doSyncApply, bump_snd] at h
      by_cases hc : p.hasConflicts
      · rw [if_pos hc] at h
        injection h with h1 h2
        subst h1; subst h2
        refine ⟨by simp, by simp, fun _ => ⟨by simp [hp], fun _ => rfl⟩⟩
      · rw [if_neg hc] at h
        rcases ha : env.applyPreview s.tick p false with e | u
        · rw [ha] at h
          injection h with h1 h2
          subst h1; subst h2
          refine ⟨by simp, fun _ => rfl, by simp⟩
        · rw [ha] at h
          injection h with h1 h2
          subst h1; subst h2
          refine ⟨fun _ => rfl, by simp, by simp⟩

/-! ## Concrete fixtures used by the witnesses and counterexamples -/

/-- A conflict-free strategy preview. -/
def previewClean : Preview :=
  { hasConflicts := false, hasLocalChanged := false, hasRemoteChanged := false,
    remoteUserData := { ref := "r", syncData := none }, lastSyncUserData := none }

/-- A conflicted strategy preview. -/
def previewConflicted : Preview := { previewClean with hasConflicts := true }

/-- The freshly constructed engine: Idle, nothing pending, no events. -/
def state0 : EngineState :=
  { status := SyncStatus.idle, conflicts := [], preview := none, statusEvents := [],
    conflictEvents := [], tick := 0, log := [] }

/-- An engine sitting in HasConflicts with a conflicted preview promise. -/
def stateConf : EngineState :=
  { state0 with
    status := SyncStatus.hasConflicts,
    preview := some (Except.ok previewConflicted),
    conflicts := [{ localUri := "l", remoteUri := "r" }] }

/-- A remote view with no remote envelope. -/
def remote0 : RemoteUserData := { ref := "r", syncData := none }

/-- A benign environment: everything enabled and succeeding, conflict
resolutions clear the conflict flag. -/
def envBase : Env :=
  { version := 1, enabled := true, resource := "settings",
    lastSyncData := fun _ => none,
    remoteData := fun _ _ => remote0,
    generatePreview := fun _ _ _ => Except.ok previewClean,
    generateReplacePreview := fun _ _ _ _ => Except.ok previewClean,
    updatePreviewWithConflict := fun _ p _ _ => Except.ok { p with hasConflicts := false },
    applyPreview := fun _ _ _ => Except.ok (),
    resolveContent := fun _ => none,
    jsonParse := fun _ => none }

/-! ## Claim C3 -/

/-- Claim C3: the preview promise is reset to null exactly when doSync
applies the preview successfully, when an error propagates out of doSync,
when stop is called, or when acceptConflict resolves all conflicts and
applies the preview; when doSync returns HasConflicts the promise is left
intact (non-null), and when acceptConflict leaves conflicts the promise
holds the updated preview (non-null). -/
theorem preview_reset_discipline (env : Env) (s : EngineState) (remote : RemoteUserData)
    (lastSync : Option RemoteUserData) (conflictUri conflictContent : String) :
    (∀ s1 st, doSync env s remote lastSync = (s1, Except.ok st) → st = SyncStatus.idle →
        s1.preview = none)
  ∧ (∀ s1 e, doSync env s remote lastSync = (s1, Except.error e) → s1.preview = none)
  ∧ (stop s).preview = none
  ∧ (∀ s1, doSync env s remote lastSync = (s1, Except.ok SyncStatus.hasConflicts) →
        s1.preview.isSome = true ∧ (s.preview.isSome = true → s1 = s))
  ∧ (∀ p p1, s.preview = some (Except.ok p) → p.hasConflicts = true →
        env.updatePreviewWithConflict s.tick p conflictUri conflictContent = Except.ok p1 →
        ((p1.hasConflicts = false → env.applyPreview (s.tick + 1) p1 false = Except.ok () →
            (acceptConflict env s conflictUri conflictContent).1.preview = none)
         ∧ (p1.hasConflicts = true →
            (acceptConflict env s conflictUri conflictContent).1.preview
              = some (Except.ok p1)))) := by
  refine ⟨?_, ?_, stop_preview s, ?_, ?_⟩
  · intro s1 st h hst
    subst hst
    exact (doSync_spec env s remote lastSync s1 _ h).2.1 rfl
  · intro s1 e h
    exact (doSync_spec env s remote lastSync s1 _ h).1 ⟨e, rfl⟩
  · intro s1 h
    exact (doSync_spec env s remote lastSync s1 _ h).2.2 rfl
  · intro p p1 hp hc hupd
    constructor
    · intro hc1 happ
      simp only [acceptConflict, hp, hc, Bool.true_eq_false, if_false, bump_snd,
        bump_fst_tick, hupd]
      rw [if_neg (by simp [hc1])]
      rw [happ]
      simp
    · intro hc1
      simp only [acceptConflict, hp, hc, Bool.true_eq_false, if_false, bump_snd,
        bump_fst_tick, hupd]
      rw [if_pos hc1]

/-- Witness for claim C3: a clean doSync run ends with no preview promise,
stop clears a conflicted promise, and acceptConflict clears the promise
after a resolving update. -/
theorem preview_reset_discipline_witness :
    (doSync envBase state0 remote0 none).1.preview = none
  ∧ (stop stateConf).preview = none
  ∧ (acceptConflict envBase stateConf "u" "c").1.preview = none := by
  refine ⟨?_, ?_, ?_⟩
  · exact (preview_reset_discipline envBase state0 remote0 none "u" "c").1 _ _ rfl rfl
  · exact (preview_reset_discipline envBase stateConf remote0 none "u" "c").2.2.1
  · exact ((preview_reset_discipline envBase stateConf remote0 none "u" "c").2.2.2.2
      previewConflicted { previewConflicted with hasConflicts := false }
      (by rfl) (by rfl) (by rfl)).1 (by rfl) (by rfl)

/-! ## Claims C1 and C5 -/

/-- Claim C1: for every UserDataSyncError thrown out of doSync, performSync
retries after refetching the remote data with a null last-sync argument
(bypassing any cache) and re-reading the persisted last-sync record when
the code is PreconditionFailed; retries with the same remote and last-sync
arguments when the code is LocalPreconditionFailed; and rethrows any other
error unchanged.  The refetch is visible in the log as a remote call with
argument none. -/
theorem performSync_precondition_retry (env : Env) (fuel : Nat) (s s1 : EngineState)
    (remote : RemoteUserData) (lastSync : Option RemoteUserData) (e : SyncError)
    (hver : isIncompatibleVersion env remote = false)
    (hdo : doSync env { s with log := s.log ++ [Action.doSyncCall remote lastSync] }
             remote lastSync = (s1, Except.error e)) :
    (e = SyncError.userDataSyncError UserDataSyncErrorCode.preconditionFailed →
       performSync env (fuel + 1) s remote lastSync =
         performSync env fuel
           (callGetLastSync env (callGetRemote env s1 none).1).1
           (callGetRemote env s1 none).2
           (callGetLastSync env (callGetRemote env s1 none).1).2
       ∧ (callGetRemote env s1 none).1.log = s1.log ++ [Action.getRemoteCall none])
  ∧ (e = SyncError.userDataSyncError UserDataSyncErrorCode.localPreconditionFailed →
       performSync env (fuel + 1) s remote lastSync = performSync env fuel s1 remote lastSync)
  ∧ (e ≠ SyncError.userDataSyncError UserDataSyncErrorCode.preconditionFailed →
     e ≠ SyncError.userDataSyncError UserDataSyncErrorCode.localPreconditionFailed →
       performSync env (fuel + 1) s remote lastSync = (s1, some (Except.error e))) := by
  have hstep : performSync env (fuel + 1) s remote lastSync =
      match doSync env { s with log := s.log ++ [Action.doSyncCall remote lastSync] }
          remote lastSync with
      | (s1, Except.ok status) => (s1, some (Except.ok status))
      | (s1, Except.error (SyncError.userDataSyncError
          UserDataSyncErrorCode.localPreconditionFailed)) =>
          performSync env fuel s1 remote lastSync
      | (s1, Except.error (SyncError.userDataSyncError
          UserDataSyncErrorCode.preconditionFailed)) =>
          let pr := callGetRemote env s1 none
          let pls := callGetLastSync env pr.1
          performSync env fuel pls.1 pr.2 pls.2
      | (s1, Except.error e) => (s1, some (Except.error e)) := by
    conv_lhs => rw [performSync]
    rw [if_neg (by simp [hver])]
  refine ⟨?_, ?_, ?_⟩
  · intro he
    subst he
    rw [hstep, hdo]
    exact ⟨rfl, rfl⟩
  · intro he
    subst he
    rw [hstep, hdo]
  · intro h1 h2
    rw [hstep, hdo]
    rcases e with code | tag
    · rcases code with _ | _ | _ | t
      · exact absurd rfl h1
      · exact absurd rfl h2
      · rfl
      · rfl
    · rfl

/-- An environment whose preview generation always fails with a server
precondition failure. -/
def envPre : Env :=
  { envBase with
    generatePreview := fun _ _ _ =>
      Except.error (SyncError.userDataSyncError UserDataSyncErrorCode.preconditionFailed) }

/-- Witness for claim C1: with a strategy whose preview generation raises
PreconditionFailed, one performSync step refetches and retries. -/
theorem performSync_precondition_retry_witness :
    performSync envPre 1 state0 remote0 none =
      performSync envPre 0
        (callGetLastSync envPre (callGetRemote envPre
          (doSync envPre { state0 with
            log := state0.log ++ [Action.doSyncCall remote0 none] } remote0 none).1 none).1).1
        (callGetRemote envPre
          (doSync envPre { state0 with
            log := state0.log ++ [Action.doSyncCall remote0 none] } remote0 none).1 none).2
        (callGetLastSync envPre (callGetRemote envPre
          (doSync envPre { state0 with
            log := state0.log ++ [Action.doSyncCall remote0 none] } remote0 none).1 none).1).2 :=
  ((performSync_precondition_retry envPre 0 state0 _ remote0 none
      (SyncError.userDataSyncError UserDataSyncErrorCode.preconditionFailed)
      (by rfl) (by rfl)).1 rfl).1

/-- Claim C5: a remote envelope whose version exceeds the strategy version
makes performSync throw Incompatible after the telemetry ping and before
invoking doSync (the log gains only the telemetry entry, so no doSync call
is recorded), for any fuel and any oracle behaviour, hence without any
retry. -/
theorem performSync_incompatible_no_retry (env : Env) (fuel : Nat) (s : EngineState)
    (remote : RemoteUserData) (lastSync : Option RemoteUserData) (sd : SyncData)
    (hsd : remote.syncData = some sd) (hver : sd.version > env.version) :
    performSync env (fuel + 1) s remote lastSync =
      ({ s with log := s.log ++ [Action.telemetry "sync/incompatible"] },
       some (Except.error (SyncError.userDataSyncError UserDataSyncErrorCode.incompatible)))
  ∧ (∀ r ls, Action.doSyncCall r ls ∈ (performSync env (fuel + 1) s remote lastSync).1.log →
       Action.doSyncCall r ls ∈ s.log) := by
  have hcond : isIncompatibleVersion env remote = true := by
    simp [isIncompatibleVersion, hsd]
    exact hver
  have heq : performSync env (fuel + 1) s remote lastSync =
      ({ s with log := s.log ++ [Action.telemetry "sync/incompatible"] },
       some (Except.error (SyncError.userDataSyncError UserDataSyncErrorCode.incompatible))) := by
    conv_lhs => rw [performSync]
    rw [if_pos (by simp [hcond])]
  refine ⟨heq, ?_⟩
  intro r ls hmem
  rw [heq] at hmem
  simpa using hmem

/-- Witness for claim C5: a remote envelope at version 9 against a strategy
at version 1 is rejected as incompatible without consulting the strategy. -/
theorem performSync_incompatible_no_retry_witness :
    performSync envBase 1 state0
      { ref := "r", syncData := some { version := 9, machineId := none, content := "x" } }
      none =
      ({ state0 with log := [Action.telemetry "sync/incompatible"] },
       some (Except.error (SyncError.userDataSyncError UserDataSyncErrorCode.incompatible))) := by
  have h := (performSync_incompatible_no_retry envBase 0 state0
    { ref := "r", syncData := some { version := 9, machineId := none, content := "x" } }
    none { version := 9, machineId := none, content := "x" } rfl (by decide)).1
  simpa [state0] using h

/-! ## Claim C2 -/

/-- Claim C2: calling sync on an enabled engine whose status is Syncing or
HasConflicts returns without reconciling: the state is returned unchanged,
so the status, the conflict list and the preview promise are untouched and
no status event is emitted.  (The enablement hypothesis reflects the source
order: the disabled branch is checked before the re-entry guards.) -/
theorem sync_reentry_noop (env : Env) (fuel : Nat) (s : EngineState) (manifest : Option Manifest)
    (hen : env.enabled = true)
    (hst : s.status = SyncStatus.syncing ∨ s.status = SyncStatus.hasConflicts) :
    sync env fuel s manifest = (s, some (Except.ok ()))
  ∧ (sync env fuel s manifest).1.statusEvents = s.statusEvents
  ∧ (sync env fuel s manifest).1.conflicts = s.conflicts
  ∧ (sync env fuel s manifest).1.preview = s.preview := by
  have heq : sync env fuel s manifest = (s, some (Except.ok ())) := by
    rcases hst with h | h <;> simp [sync, hen, h]
  exact ⟨heq, by rw [heq], by rw [heq], by rw [heq]⟩

/-- Witness for claim C2: a sync call on an engine already in the Syncing
state returns it unchanged. -/
theorem sync_reentry_noop_witness :
    sync envBase 1 { state0 with status := SyncStatus.syncing } none =
      ({ state0 with status := SyncStatus.syncing }, some (Except.ok ())) :=
  (sync_reentry_noop envBase 1 { state0 with status := SyncStatus.syncing } none
    rfl (Or.inl rfl)).1

/-! ## Claim C6 -/

/-- Claim C6: during sync, when a last-sync record exists and either the
manifest latest ref for the resource equals the last-sync ref, or the
manifest has no entry for the resource and the last-sync envelope is null,
the remote store is not contacted (the state, hence the log, is unchanged)
and the last-sync record is the remote view; in every other case
getRemoteUserData is invoked, which is visible in the log. -/
theorem latest_remote_short_circuit (env : Env) (s : EngineState) (manifest : Option Manifest) :
    (∀ lsd : RemoteUserData,
        (some lsd.ref = latestRefOf env.resource manifest ∨
         (latestRefOf env.resource manifest = none ∧ lsd.syncData = none)) →
        getLatestRemoteUserData env s manifest (some lsd) = (s, lsd))
  ∧ (∀ lsd : RemoteUserData,
        ¬(some lsd.ref = latestRefOf env.resource manifest ∨
          (latestRefOf env.resource manifest = none ∧ lsd.syncData = none)) →
        getLatestRemoteUserData env s manifest (some lsd) = callGetRemote env s (some lsd))
  ∧ getLatestRemoteUserData env s manifest none = callGetRemote env s none
  ∧ (∀ arg, (callGetRemote env s arg).1.log = s.log ++ [Action.getRemoteCall arg]) := by
  refine ⟨?_, ?_, rfl, fun arg => rfl⟩
  · intro lsd h
    simp only [getLatestRemoteUserData]
    rcases h with h | h
    · rw [if_pos h]
    · rw [if_neg, if_pos h]
      intro hr
      rw [h.1] at hr
      exact Option.noConfusion hr
  · intro lsd h
    rw [not_or] at h
    simp only [getLatestRemoteUserData]
    rw [if_neg h.1, if_neg h.2]

/-- Witness for claim C6: a last-sync record whose ref matches the manifest
is reused as the remote view without contacting the remote store. -/
theorem latest_remote_short_circuit_witness :
    getLatestRemoteUserData envBase state0
      (some { latest := some [("settings", "r")] }) (some remote0) = (state0, remote0) :=
  (latest_remote_short_circuit envBase state0
    (some { latest := some [("settings", "r")] })).1 remote0 (Or.inl (by rfl))

/-! ## Claim C4 -/

/-- Claim C4: a JSON value (with the distinct keys every parse produces) is
recognized by isSyncData precisely when it has exactly the keys version (a
number) and content (a string), or exactly the keys version (a number),
machineId (a string) and content (a string); any value isSyncData rejects,
and unparseable content, makes parseSyncData throw a UserDataSyncError with
code Incompatible. -/
theorem isSyncData_exact_shape (v : JsonValue) :
    (keysNodup v → (isSyncData v = true ↔ SyncDataShape v))
  ∧ (isSyncData v = false →
       parseSyncData (some v) =
         Except.error (SyncError.userDataSyncError UserDataSyncErrorCode.incompatible))
  ∧ parseSyncData none =
      Except.error (SyncError.userDataSyncError UserDataSyncErrorCode.incompatible) := by
  refine ⟨?_, fun h => by simp [parseSyncData, h], rfl⟩
  intro hnd
  cases v with
  | jnull => simp [isSyncData, SyncDataShape]
  | jbool b => simp [isSyncData, SyncDataShape]
  | jnum n => simp [isSyncData, SyncDataShape]
  | jstr s1 => simp [isSyncData, SyncDataShape]
  | jarr l => simp [isSyncData, SyncDataShape]
  | jobj fields =>
    simp only [keysNodup] at hnd
    constructor
    · intro h
      simp only [isSyncData, Bool.and_eq_true, Bool.or_eq_true, beq_iff_eq] at h
      obtain ⟨⟨hv, hc⟩, hrest⟩ := h
      refine ⟨fields, rfl, ?_⟩
      rcases hrest with hlen | ⟨hlen, hm⟩
      · left
        have hsub : ∀ k ∈ ["version", "content"], k ∈ fields.map Prod.fst := by
          intro k hk
          simp only [List.mem_cons, List.not_mem_nil, or_false] at hk
          rcases hk with rfl | rfl
          · exact keyIsNum_mem hv
          · exact keyIsStr_mem hc
        refine ⟨⟨hsub, ?_⟩, hv, hc⟩
        exact nodup_length_eq_exact hnd (by decide) hsub (by simp [hlen])
      · right
        have hsub : ∀ k ∈ ["version", "machineId", "content"], k ∈ fields.map Prod.fst := by
          intro k hk
          simp only [List.mem_cons, List.not_mem_nil, or_false] at hk
          rcases hk with rfl | rfl | rfl
          · exact keyIsNum_mem hv
          · exact keyIsStr_mem hm
          · exact keyIsStr_mem hc
        refine ⟨⟨hsub, ?_⟩, hv, hm, hc⟩
        exact nodup_length_eq_exact hnd (by decide) hsub (by simp [hlen])
    · rintro ⟨fields1, hfe, hsh⟩
      injection hfe with hfe1
      subst hfe1
      simp only [isSyncData, Bool.and_eq_true, Bool.or_eq_true, beq_iff_eq]
      rcases hsh with ⟨⟨hsub, hsup⟩, hv, hc⟩ | ⟨⟨hsub, hsup⟩, hv, hm, hc⟩
      · refine ⟨⟨hv, hc⟩, Or.inl ?_⟩
        have := nodup_exact_length hnd (by decide) hsub hsup
        simpa using this
      · refine ⟨⟨hv, hc⟩, Or.inr ⟨?_, hm⟩⟩
        have := nodup_exact_length hnd (by decide) hsub hsup
        simpa using this

/-- Witness for claim C4: the two-key envelope shape satisfies the
equivalence, and the empty object is rejected with Incompatible. -/
theorem isSyncData_exact_shape_witness :
    (isSyncData (JsonValue.jobj [("version", JsonValue.jnum 1), ("content", JsonValue.jstr "c")])
        = true ↔
      SyncDataShape (JsonValue.jobj [("version", JsonValue.jnum 1), ("content", JsonValue.jstr "c")]))
  ∧ parseSyncData (some (JsonValue.jobj [])) =
      Except.error (SyncError.userDataSyncError UserDataSyncErrorCode.incompatible) :=
  ⟨(isSyncData_exact_shape _).1 (by simp [keysNodup]),
   (isSyncData_exact_shape (JsonValue.jobj [])).2.1 rfl⟩

/-! ## Envelope round-trip lemmas -/

lemma isSyncData_encodeSyncData (sd : SyncData) : isSyncData (encodeSyncData sd) = true := by
  rcases hm : sd.machineId with _ | m <;>
    simp [encodeSyncData, hm, isSyncData, keyIsNum, keyIsStr, fieldLookup]

lemma decodeSyncData_encodeSyncData (sd : SyncData) :
    decodeSyncData (encodeSyncData sd) = sd := by
  rcases sd with ⟨ver, mid, cont⟩
  rcases mid with _ | m <;>
    simp [encodeSyncData, decodeSyncData, fieldLookup]

/-! ## Claim C9 -/

/-- Counterexample to claim C9: writing a last-sync record for an absent
remote (null content sentinel) together with an additional property, then
reading it back, loses the additional property: getLastSyncUserData
returns only the ref and the null envelope. -/
theorem lastSync_null_sentinel_drops_extras :
    getLastSyncUserData (some (updateLastSyncUserData { ref := "1", syncData := none }
        [("machineDidChange", JsonValue.jbool true)])) =
      some { ref := "1", syncData := none, extras := [] }
  ∧ getLastSyncUserData (some (updateLastSyncUserData { ref := "1", syncData := none }
        [("machineDidChange", JsonValue.jbool true)])) ≠
      some { ref := "1", syncData := none,
             extras := [("machineDidChange", JsonValue.jbool true)] } := by
  refine ⟨rfl, ?_⟩
  intro h
  rw [show getLastSyncUserData (some (updateLastSyncUserData { ref := "1", syncData := none }
      [("machineDidChange", JsonValue.jbool true)])) =
      some { ref := "1", syncData := none, extras := [] } from rfl] at h
  simp only [Option.some.injEq, LastSyncUserData.mk.injEq] at h
  exact List.noConfusion h.2.2

/-- Claim C9 amended: additional properties written by
updateLastSyncUserData are returned verbatim by getLastSyncUserData
alongside ref and syncData whenever the persisted content is a non-null
envelope; in the null-sentinel case (remote absent at last sync) the
read returns only ref and a null envelope, dropping the additional
properties. -/
theorem lastSync_extras_roundtrip (remote : RemoteUserData)
    (extras : List (String × JsonValue)) :
    (∀ sd, remote.syncData = some sd →
       getLastSyncUserData (some (updateLastSyncUserData remote extras)) =
         some { ref := remote.ref, syncData := some sd, extras := extras })
  ∧ (remote.syncData = none →
       getLastSyncUserData (some (updateLastSyncUserData remote extras)) =
         some { ref := remote.ref, syncData := none, extras := [] }) := by
  constructor
  · intro sd hsd
    simp [getLastSyncUserData, updateLastSyncUserData, hsd,
      isSyncData_encodeSyncData, decodeSyncData_encodeSyncData]
  · intro hsd
    simp [getLastSyncUserData, updateLastSyncUserData, hsd]

/-- Witness for claim C9 (amended): a record with an envelope and one
additional property round-trips with the property intact. -/
theorem lastSync_extras_roundtrip_witness :
    getLastSyncUserData (some (updateLastSyncUserData
        { ref := "2", syncData := some { version := 1, machineId := some "m", content := "c" } }
        [("extraKey", JsonValue.jnum 7)])) =
      some { ref := "2",
             syncData := some { version := 1, machineId := some "m", content := "c" },
             extras := [("extraKey", JsonValue.jnum 7)] } :=
  (lastSync_extras_roundtrip
    { ref := "2", syncData := some { version := 1, machineId := some "m", content := "c" } }
    [("extraKey", JsonValue.jnum 7)]).1
    { version := 1, machineId := some "m", content := "c" } rfl

/-! ## Claim C10 -/

/-- The value of a field of a serialized envelope. -/
def envelopeField (v : JsonValue) (k : String) : Option JsonValue :=
  match v with
  | JsonValue.jobj fields => fieldLookup fields k
  | _ => none

/-- The key list of a serialized envelope. -/
def envelopeKeys (v : JsonValue) : List String :=
  match v with
  | JsonValue.jobj fields => fields.map Prod.fst
  | _ => []

/-- Claim C10: the envelope updateRemoteUserData writes to the remote store
has exactly the keys version, machineId, content with machineId the current
machine id; the envelope backupLocal hands to the local backup store has
exactly the keys version, content, with no machineId: local backups never
carry machine identity. -/
theorem remote_envelope_vs_backup_envelope (version : Int) (machineId content : String) :
    encodeSyncData (updateRemoteUserDataEnvelope version machineId content) =
      JsonValue.jobj [("version", JsonValue.jnum version),
        ("machineId", JsonValue.jstr machineId), ("content", JsonValue.jstr content)]
  ∧ envelopeKeys (encodeSyncData (updateRemoteUserDataEnvelope version machineId content)) =
      ["version", "machineId", "content"]
  ∧ envelopeField (encodeSyncData (updateRemoteUserDataEnvelope version machineId content))
      "machineId" = some (JsonValue.jstr machineId)
  ∧ encodeSyncData (backupLocalEnvelope version content) =
      JsonValue.jobj [("version", JsonValue.jnum version), ("content", JsonValue.jstr content)]
  ∧ envelopeKeys (encodeSyncData (backupLocalEnvelope version content)) =
      ["version", "content"]
  ∧ envelopeField (encodeSyncData (backupLocalEnvelope version content)) "machineId" = none := by
  refine ⟨rfl, rfl, ?_, rfl, rfl, ?_⟩ <;>
    simp [encodeSyncData, updateRemoteUserDataEnvelope, backupLocalEnvelope,
      envelopeField, fieldLookup]

/-! ## Claim C8 -/

/-- Claim C8 concerns the source as written: the body of push calls stop
without awaiting it, while pull awaits stop; push is otherwise symmetric to
pull (push preview, forcePush true). -/
theorem push_does_not_await_stop :
    StepKind.callStop false ∈ pushSteps
  ∧ StepKind.callStop true ∉ pushSteps
  ∧ StepKind.callStop true ∈ pullSteps
  ∧ StepKind.callStop false ∉ pullSteps
  ∧ StepKind.applyPreviewStep true ∈ pushSteps
  ∧ StepKind.applyPreviewStep false ∈ pullSteps := by
  refine ⟨?_, ?_, ?_, ?_, ?_, ?_⟩ <;> decide

/-! ## Claim C7 -/

/-- An environment resolving every handle to content that does not parse
as JSON. -/
def envBadParse : Env :=
  { envBase with
    resolveContent := fun _ => some "bad" }

/-- Counterexample to claim C7: when the resolved content cannot be parsed
as SyncData, replace throws the Incompatible error from parseSyncData
instead of returning false. -/
theorem replace_throws_on_unparseable_counterexample :
    replace envBadParse state0 "uri" =
      (state0, Except.error (SyncError.userDataSyncError UserDataSyncErrorCode.incompatible))
  ∧ (Except.error (SyncError.userDataSyncError UserDataSyncErrorCode.incompatible) :
       Except SyncError Bool) ≠ Except.ok false := by
  refine ⟨rfl, ?_⟩
  intro h
  exact Except.noConfusion h

/-- Claim C7 amended: replace returns false when the content at the handle
cannot be resolved or is empty; when the content cannot be parsed as
SyncData, replace throws the Incompatible UserDataSyncError raised by
parseSyncData; otherwise (parse succeeds, strategy calls succeed) it stops
any in-flight preview, sets status Syncing, builds and applies a replace
preview, returns to Idle, and returns true. -/
theorem replace_behaviour (env : Env) (s : EngineState) (uri : String) :
    (env.resolveContent uri = none → replace env s uri = (s, Except.ok false))
  ∧ (env.resolveContent uri = some "" → replace env s uri = (s, Except.ok false))
  ∧ (∀ c, env.resolveContent uri = some c → c ≠ "" →
        parseSyncData (env.jsonParse c) =
          Except.error (SyncError.userDataSyncError UserDataSyncErrorCode.incompatible) →
        replace env s uri =
          (s, Except.error (SyncError.userDataSyncError UserDataSyncErrorCode.incompatible)))
  ∧ (∀ c sd (genOf : Nat → SyncData → RemoteUserData → Option RemoteUserData → Preview),
        env.resolveContent uri = some c → c ≠ "" →
        parseSyncData (env.jsonParse c) = Except.ok sd →
        (∀ t sd1 r ls, env.generateReplacePreview t sd1 r ls = Except.ok (genOf t sd1 r ls)) →
        (∀ t p f, env.applyPreview t p f = Except.ok ()) →
        s.status = SyncStatus.idle →
        (replace env s uri).2 = Except.ok true
        ∧ (replace env s uri).1.status = SyncStatus.idle
        ∧ (replace env s uri).1.preview = none
        ∧ (replace env s uri).1.statusEvents =
            s.statusEvents ++ [SyncStatus.syncing, SyncStatus.idle]
        ∧ Action.applyPreviewCall false ∈ (replace env s uri).1.log) := by
  refine ⟨?_, ?_, ?_, ?_⟩
  · intro h
    simp [replace, h]
  · intro h
    simp [replace, h]
  · intro c h hne hp
    simp only [replace, h, hp]
    rw [if_neg hne]
  · intro c sd genOf hres hne hparse hgen happ hidle
    simp only [replace, hres, if_neg hne, hparse, hgen, happ]
    refine ⟨by simp, by simp, by simp, by simp [hidle], ?_⟩
    apply setStatus_log_mono
    simp

/-- An environment whose handle content resolves and parses to a valid
envelope. -/
def envReplaceOk : Env :=
  { envBase with
    resolveContent := fun _ => some "x",
    jsonParse := fun _ =>
      some (JsonValue.jobj [("version", JsonValue.jnum 1), ("content", JsonValue.jstr "c")]) }

/-- Witness for claim C7 (amended): an unresolvable handle returns false,
and a resolvable, parseable one runs the replace to completion. -/
theorem replace_behaviour_witness :
    replace envBase state0 "u" = (state0, Except.ok false)
  ∧ (replace envReplaceOk state0 "u").2 = Except.ok true
  ∧ (replace envReplaceOk state0 "u").1.status = SyncStatus.idle
  ∧ (replace envReplaceOk state0 "u").1.preview = none
  ∧ (replace envReplaceOk state0 "u").1.statusEvents = [SyncStatus.syncing, SyncStatus.idle]
  ∧ Action.applyPreviewCall false ∈ (replace envReplaceOk state0 "u").1.log := by
  have h1 := (replace_behaviour envBase state0 "u").1 rfl
  have h4 := (replace_behaviour envReplaceOk state0 "u").2.2.2 "x"
    { version := 1, machineId := none, content := "c" } (fun _ _ _ _ => previewClean)
    rfl (by decide) (by rfl) (fun _ _ _ _ => rfl) (fun _ _ _ => rfl) rfl
  refine ⟨h1, h4.1, h4.2.1, h4.2.2.1, ?_, h4.2.2.2.2⟩
  simpa [state0] using h4.2.2.2.1

end UserDataSync
